import Mathlib

/-!
Shallow embedding of the Apogee Quantum serial driver (src/apogee.py).

The driver talks to a quantum sensor over a serial link.  We model:

* the driver state (`QuantumState`): whether `self.quantum` holds an open
  handle, and the calibration fields `multiplier` and `offset`;
* the transport behaviour as explicit inputs: each command/response
  exchange either raises an I/O-level fault (`Exchange.fault`, the Python
  `IOError` / `SerialException` family) or yields the byte string that
  `read(n)` returned (`Exchange.reply bs`, a list of byte values, possibly
  truncated by the 0.5 s timeout, so its length ranges from 0 to n);
* Python exceptions that escape an operation as `Except PyErr`:
  `structError` is `struct.error` raised by `struct.unpack` on a body whose
  length differs from the format width (it is not an `IOError`, so the
  `except IOError` handlers do not catch it), and `attrError` is the
  `AttributeError` raised by `None.write(...)` when `self.quantum is None`
  (also not caught by `except IOError`);
* IEEE-754 binary32 values as exact rationals (`f32val`), by the standard
  normal/subnormal formulas; the exponent-255 encodings (infinities, NaNs)
  are outside the scope of the model and are given by the same normal
  formula.  Python float arithmetic (sums, mean, calibration arithmetic)
  is modelled as exact rational arithmetic.

Each operation is a function of the driver state and of the transport
behaviour it consumes, returning the Python-level outcome (a normal return
value, or an uncaught exception) together with the driver state after the
call.  Wall-clock sleeps and `print` calls are not modelled.
-/

namespace Apogee

/-- A Python exception escaping (or aborting part of) an operation:
`ioError` for the `IOError`/`SerialException` family raised by the
transport, `structError` for `struct.error` from `struct.unpack`, and
`attrError` for the `AttributeError` raised by calling a method on
`None`. -/
inductive PyErr where
  | ioError
  | structError
  | attrError
deriving DecidableEq

instance {ε α : Type} [DecidableEq ε] [DecidableEq α] : DecidableEq (Except ε α) := fun a b =>
  match a, b with
  | .ok x, .ok y =>
      if h : x = y then .isTrue (by rw [h]) else .isFalse (by simp [h])
  | .error x, .error y =>
      if h : x = y then .isTrue (by rw [h]) else .isFalse (by simp [h])
  | .ok _, .error _ => .isFalse (by simp)
  | .error _, .ok _ => .isFalse (by simp)

/-- The Python-visible state of a `Quantum` driver instance:
`connected` is true when `self.quantum` holds a serial handle (false when
it is `None`), and `multiplier` / `offset` are the calibration fields. -/
structure QuantumState where
  connected : Bool
  multiplier : ℚ
  offset : ℚ
deriving DecidableEq

/-- The outcome of one write-then-read exchange with the device:
either an I/O-level fault raised during `write`/`read`, or the byte
string the `read` call returned (length 0 up to the requested width). -/
inductive Exchange where
  | fault
  | reply (bs : List ℕ)
deriving DecidableEq

/-- The transport behaviour seen by one run of `connect_to_device`:
either the `Serial(...)` open raises `SerialException` (`serialFail`),
or the connection opens and the two calibration reads return the byte
strings `rep5` (requested width 5) and `rep4` (requested width 4). -/
inductive ConnectBehavior where
  | serialFail
  | replies (rep5 rep4 : List ℕ)
deriving DecidableEq

/-- The unsigned little-endian value of a byte string, as `struct.unpack`
reads it (byte 0 is least significant). -/
def leNat (bs : List ℕ) : ℕ := bs.foldr (fun b acc => b + 256 * acc) 0

/-- The exact rational value of a 4-byte little-endian IEEE-754 binary32
encoding, per the standard subnormal/normal formulas.  Exponent-field 255
(infinities and NaNs) is outside the scope of the model and falls under
the normal-formula branch. -/
def f32val (bs : List ℕ) : ℚ :=
  let bits : ℕ := leNat bs
  let sign : ℕ := bits / 2 ^ 31
  let expF : ℕ := bits / 2 ^ 23 % 2 ^ 8
  let frac : ℕ := bits % 2 ^ 23
  let mag : ℚ :=
    if expF = 0 then (frac : ℚ) / 2 ^ 149
    else ((2 ^ 23 + frac : ℕ) : ℚ) * 2 ^ expF / 2 ^ 150
  if sign = 1 then -mag else mag

/-- Python `struct.unpack('<f', body)`: succeeds exactly when the body is
4 bytes long, and otherwise raises `struct.error`. -/
def unpackF (bs : List ℕ) : Except PyErr ℚ :=
  if bs.length = 4 then .ok (f32val bs) else .error .structError

/-- Python `struct.unpack('<I', body)`: succeeds exactly when the body is
4 bytes long (yielding the little-endian unsigned value), and otherwise
raises `struct.error`. -/
def unpackU (bs : List ℕ) : Except PyErr ℕ :=
  if bs.length = 4 then .ok (leNat bs) else .error .structError

/-- `Quantum.connect_to_device`: open the port and read the calibration.
On `SerialException` the handler prints and leaves `self.quantum = None`.
Otherwise the handle is set, `read(5)[1:]` is unpacked into
`self.multiplier`, then the 4-byte offset reply is unpacked into
`self.offset`; a wrong-width body raises `struct.error` after the earlier
assignments took effect. -/
def connect_to_device (s : QuantumState) (cb : ConnectBehavior) :
    Except PyErr Unit × QuantumState :=
  match cb with
  | .serialFail => (.ok (), { s with connected := false })
  | .replies rep5 rep4 =>
    let s1 := { s with connected := true }
    match unpackF (rep5.drop 1) with
    | .error e => (.error e, s1)
    | .ok m =>
      let s2 := { s1 with multiplier := m }
      match unpackF rep4 with
      | .error e => (.error e, s2)
      | .ok o => (.ok (), { s2 with offset := o })

/-- The sampling loop of `Quantum.read_voltage`, at loop index `i` with
`n` iterations left and `acc` the `response_list` so far.  An I/O fault
returns the sentinel immediately (modelled `.ok none`); an empty body
(`read(5)` returned 0 or 1 bytes) is skipped; otherwise the body is
unpacked (raising `struct.error` on a wrong width) and appended. -/
def voltLoop (ex : ℕ → Exchange) : ℕ → ℕ → List ℚ → Except PyErr (Option (List ℚ))
  | _, 0, acc => .ok (some acc)
  | i, n + 1, acc =>
    match ex i with
    | .fault => .ok none
    | .reply bs =>
      let body := bs.drop 1
      if body = [] then voltLoop ex (i + 1) n acc
      else
        match unpackF body with
        | .error e => .error e
        | .ok v => voltLoop ex (i + 1) n (acc ++ [v])

/-- The `number_to_average` constant of `Quantum.read_voltage`. -/
def number_to_average : ℕ := 5

/-- `Quantum.read_voltage`: when `self.quantum is None` it first retries
`connect_to_device` (whose `struct.error`, not being an `IOError`, escapes);
if the handle is still missing, the first `self.quantum.write` raises
`AttributeError`.  Otherwise it runs five `GET_VOLT` exchanges: an I/O
fault returns the sentinel `9999`, and at the end it returns the mean of
the collected samples, or `0.0` when none were collected. -/
def read_voltage (s : QuantumState) (cb : ConnectBehavior) (ex : ℕ → Exchange) :
    Except PyErr ℚ × QuantumState :=
  let step : Except PyErr Unit × QuantumState :=
    if s.connected then (.ok (), s) else connect_to_device s cb
  match step with
  | (.error e, s1) => (.error e, s1)
  | (.ok _, s1) =>
    if s1.connected then
      match voltLoop ex 0 number_to_average [] with
      | .error e => (.error e, s1)
      | .ok none => (.ok 9999, s1)
      | .ok (some l) =>
        if l = [] then (.ok 0, s1) else (.ok (l.sum / (l.length : ℚ)), s1)
    else (.error .attrError, s1)

/-- `Quantum.get_micromoles`: average a voltage, treat `9999` as a failed
read (return `None`), otherwise convert with the calibration held after
the read and clamp negative results to `0`. -/
def get_micromoles (s : QuantumState) (cb : ConnectBehavior) (ex : ℕ → Exchange) :
    Except PyErr (Option ℚ) × QuantumState :=
  match read_voltage s cb ex with
  | (.error e, s1) => (.error e, s1)
  | (.ok v, s1) =>
    if v = 9999 then (.ok none, s1)
    else
      let micromoles := (v - s1.offset) * s1.multiplier * 1000
      (.ok (some (if micromoles < 0 then 0 else micromoles)), s1)

/-- `Quantum.erase_logged_data`: write the erase command; an I/O fault is
printed and reported as `False`, success as `True`.  With no handle the
`None.write` raises `AttributeError`, which `except IOError` does not
catch. -/
def erase_logged_data (s : QuantumState) (writeFault : Bool) :
    Except PyErr Bool × QuantumState :=
  if s.connected then
    if writeFault then (.ok false, s) else (.ok true, s)
  else (.error .attrError, s)

/-- `Quantum.get_logging_count`: one exchange; an I/O fault is printed and
reported as `None`; an empty body (0 or 1 bytes read) returns count `0`;
otherwise the body is unpacked as a little-endian uint32 (raising
`struct.error`, uncaught, on a wrong width).  With no handle the
`None.write` raises `AttributeError`. -/
def get_logging_count (s : QuantumState) (exC : Exchange) :
    Except PyErr (Option ℕ) × QuantumState :=
  if s.connected then
    match exC with
    | .fault => (.ok none, s)
    | .reply bs =>
      let body := bs.drop 1
      if body = [] then (.ok (some 0), s)
      else
        match unpackU body with
        | .error e => (.error e, s)
        | .ok c => (.ok (some c), s)
  else (.error .attrError, s)

/-- The per-entry loop of `Quantum.get_all_logged_entries`, at index `i`
with `n` iterations left: an I/O fault is printed and skipped (the loop
continues); an empty body writes no row; otherwise the body is unpacked
(raising `struct.error`, uncaught, on a wrong width) and the row
`(earliest + i minutes, value)` is appended.  Timestamps are modelled in
whole minutes as integers. -/
def entryLoop (exE : ℕ → Exchange) (earliest : ℤ) :
    ℕ → ℕ → List (ℤ × ℚ) → Except PyErr (List (ℤ × ℚ))
  | _, 0, acc => .ok acc
  | i, n + 1, acc =>
    match exE i with
    | .fault => entryLoop exE earliest (i + 1) n acc
    | .reply bs =>
      let body := bs.drop 1
      if body = [] then entryLoop exE earliest (i + 1) n acc
      else
        match unpackF body with
        | .error e => .error e
        | .ok v => entryLoop exE earliest (i + 1) n (acc ++ [(earliest + (i : ℤ), v)])

/-- `Quantum.get_all_logged_entries` with caller-supplied reference time
`T` (in minutes): obtain the count; on `None` do nothing (no file is
written, modelled `.ok none`); otherwise write the header, set
`earliest = T - count` minutes, and run the entry loop over indices
`0 .. count-1`.  The result `some rows` stands for the written file:
header plus `rows` in order.  An uncaught exception discards the model
output. -/
def get_all_logged_entries (s : QuantumState) (T : ℤ) (exC : Exchange) (exE : ℕ → Exchange) :
    Except PyErr (Option (List (ℤ × ℚ))) × QuantumState :=
  match get_logging_count s exC with
  | (.error e, s1) => (.error e, s1)
  | (.ok none, s1) => (.ok none, s1)
  | (.ok (some c), s1) =>
    match entryLoop exE (T - (c : ℤ)) 0 c [] with
    | .error e => (.error e, s1)
    | .ok rows => (.ok (some rows), s1)

/-- An exchange outcome that the sampling loop consumes without raising:
not a fault, and the body left by `read(5)[1:]` is either empty (0 or 1
bytes were read) or the full 4 bytes. -/
def goodReply : Exchange → Bool
  | .fault => false
  | .reply bs => decide (bs.drop 1 = [] ∨ (bs.drop 1).length = 4)

/-- An exchange outcome carrying a complete 5-byte measurement reply. -/
def fullReply : Exchange → Bool
  | .fault => false
  | .reply bs => decide ((bs.drop 1).length = 4)

/-- A well-formed exchange outcome: a fault, or a reply whose body is
empty or full width.  These are exactly the outcomes on which no decode
exception is raised. -/
def goodExch : Exchange → Bool
  | .fault => true
  | .reply bs => decide (bs.drop 1 = [] ∨ (bs.drop 1).length = 4)

/-- The sample an exchange contributes to `response_list`: the decoded
float when the reply body is full width, nothing otherwise. -/
def sampleOf : Exchange → Option ℚ
  | .fault => none
  | .reply bs => if (bs.drop 1).length = 4 then some (f32val (bs.drop 1)) else none

/-- The samples collected from the first `n` exchanges. -/
def samples (ex : ℕ → Exchange) (n : ℕ) : List ℚ :=
  (List.range n).filterMap fun i => sampleOf (ex i)

/-- The float decoded from a full reply (junk value `0` on other
outcomes; only used at full replies). -/
def entryVal : Exchange → ℚ
  | .fault => 0
  | .reply bs => f32val (bs.drop 1)

/-- An `Except` outcome that is a normal return, not an uncaught
exception. -/
def isOkE {α : Type} : Except PyErr α → Bool
  | .ok _ => true
  | .error _ => false

theorem voltLoop_good (ex : ℕ → Exchange) :
    ∀ (n i : ℕ) (acc : List ℚ),
      (∀ k, k < n → goodReply (ex (i + k)) = true) →
      voltLoop ex i n acc =
        .ok (some (acc ++ (List.range' i n).filterMap fun j => sampleOf (ex j))) := by
  intro n
  induction n with
  | zero => intro i acc _; simp [voltLoop]
  | succ n ih =>
    intro i acc h
    have h0 : goodReply (ex i) = true := by simpa using h 0 (Nat.succ_pos n)
    have hrest : ∀ k, k < n → goodReply (ex (i + 1 + k)) = true := by
      intro k hk
      have := h (k + 1) (by omega)
      have e : i + (k + 1) = i + 1 + k := by omega
      rwa [e] at this
    rw [List.range'_succ i n 1]
    cases hx : ex i with
    | fault => rw [goodReply.eq_def, hx] at h0; simp at h0
    | reply bs =>
      rw [goodReply.eq_def, hx] at h0
      simp only [decide_eq_true_eq] at h0
      rw [voltLoop, hx]
      by_cases hb : bs.drop 1 = []
      · have hs : sampleOf (ex i) = none := by
          rw [sampleOf.eq_def, hx]; simp [hb]
        simp [hb, List.filterMap_cons, hs, ih (i + 1) acc hrest]
      · have hlen : (bs.drop 1).length = 4 := h0.resolve_left hb
        have hL : bs.length = 5 := by
          have h5 := hlen
          rw [List.length_drop] at h5
          omega
        have hs : sampleOf (ex i) = some (f32val (bs.drop 1)) := by
          rw [sampleOf.eq_def, hx]; simp [hlen, hL]
        have hu : unpackF (bs.drop 1) = .ok (f32val (bs.drop 1)) := by
          rw [unpackF, if_pos hlen]
        have hbt : ¬ bs.tail = [] := by rwa [List.drop_one] at hb
        have hut : unpackF bs.tail = .ok (f32val bs.tail) := by rwa [List.drop_one] at hu
        have hst : sampleOf (ex i) = some (f32val bs.tail) := by rwa [List.drop_one] at hs
        simp [hbt, hut, List.filterMap_cons, hst,
          ih (i + 1) (acc ++ [f32val bs.tail]) hrest]

theorem voltLoop_fault (ex : ℕ → Exchange) :
    ∀ (m n i : ℕ) (acc : List ℚ), m < n →
      (∀ k, k < m → goodReply (ex (i + k)) = true) →
      ex (i + m) = .fault →
      voltLoop ex i n acc = .ok none := by
  intro m
  induction m with
  | zero =>
    intro n i acc hn _ hf
    cases n with
    | zero => omega
    | succ n =>
      rw [show i + 0 = i from rfl] at hf
      rw [voltLoop, hf]
  | succ m ih =>
    intro n i acc hn h hf
    cases n with
    | zero => omega
    | succ n =>
      have h0 : goodReply (ex i) = true := by simpa using h 0 (Nat.succ_pos m)
      have hrest : ∀ k, k < m → goodReply (ex (i + 1 + k)) = true := by
        intro k hk
        have := h (k + 1) (by omega)
        have e : i + (k + 1) = i + 1 + k := by omega
        rwa [e] at this
      have hf1 : ex (i + 1 + m) = .fault := by
        have e : i + (m + 1) = i + 1 + m := by omega
        rwa [e] at hf
      cases hx : ex i with
      | fault => rw [goodReply.eq_def, hx] at h0; simp at h0
      | reply bs =>
        rw [goodReply.eq_def, hx] at h0
        simp only [decide_eq_true_eq] at h0
        rw [voltLoop, hx]
        by_cases hb : bs.drop 1 = []
        · simp [hb, ih n (i + 1) acc (by omega) hrest hf1]
        · have hlen : (bs.drop 1).length = 4 := h0.resolve_left hb
          have hu : unpackF (bs.drop 1) = .ok (f32val (bs.drop 1)) := by
            rw [unpackF, if_pos hlen]
          have hbt : ¬ bs.tail = [] := by rwa [List.drop_one] at hb
          have hut : unpackF bs.tail = .ok (f32val bs.tail) := by rwa [List.drop_one] at hu
          simp [hbt, hut, ih n (i + 1) (acc ++ [f32val bs.tail]) (by omega) hrest hf1]

theorem entryLoop_good (exE : ℕ → Exchange) (E : ℤ) :
    ∀ (n i : ℕ) (acc : List (ℤ × ℚ)),
      (∀ k, k < n → exE (i + k) = .fault ∨ fullReply (exE (i + k)) = true) →
      entryLoop exE E i n acc =
        .ok (acc ++ ((List.range' i n).filter fun j => decide (exE j ≠ .fault)).map
          fun (j : ℕ) => ((E + (j : ℤ), entryVal (exE j)) : ℤ × ℚ)) := by
  intro n
  induction n with
  | zero => intro i acc _; simp [entryLoop]
  | succ n ih =>
    intro i acc h
    have h0 := h 0 (Nat.succ_pos n)
    rw [show i + 0 = i from rfl] at h0
    have hrest : ∀ k, k < n → exE (i + 1 + k) = .fault ∨ fullReply (exE (i + 1 + k)) = true := by
      intro k hk
      have := h (k + 1) (by omega)
      have e : i + (k + 1) = i + 1 + k := by omega
      rwa [e] at this
    rw [List.range'_succ i n 1, List.filter_cons]
    cases hx : exE i with
    | fault =>
      rw [entryLoop, hx]
      simp [hx, ih (i + 1) acc hrest]
    | reply bs =>
      have hfull : fullReply (exE i) = true := by
        rcases h0 with h0 | h0
        · rw [h0] at hx; cases hx
        · exact h0
      have hlen : (bs.drop 1).length = 4 := by
        rw [fullReply.eq_def, hx] at hfull; simpa using hfull
      have hb : ¬ bs.drop 1 = [] := by
        intro e; rw [e] at hlen; simp at hlen
      have hu : unpackF (bs.drop 1) = .ok (f32val (bs.drop 1)) := by
        rw [unpackF, if_pos hlen]
      have hbt : ¬ bs.tail = [] := by rwa [List.drop_one] at hb
      have hut : unpackF bs.tail = .ok (f32val bs.tail) := by rwa [List.drop_one] at hu
      have hvt : entryVal (Exchange.reply bs) = f32val bs.tail := by
        rw [entryVal.eq_def]; simp [List.drop_one]
      rw [entryLoop, hx]
      simp [hx, hbt, hut, hvt,
        ih (i + 1) (acc ++ [(E + (i : ℤ), f32val bs.tail)]) hrest]

theorem voltLoop_wf (ex : ℕ → Exchange) :
    ∀ (n i : ℕ) (acc : List ℚ),
      (∀ k, k < n → goodExch (ex (i + k)) = true) →
      ∃ r, voltLoop ex i n acc = .ok r := by
  intro n
  induction n with
  | zero => intro i acc _; exact ⟨some acc, rfl⟩
  | succ n ih =>
    intro i acc h
    have h0 : goodExch (ex i) = true := by simpa using h 0 (Nat.succ_pos n)
    have hrest : ∀ k, k < n → goodExch (ex (i + 1 + k)) = true := by
      intro k hk
      have := h (k + 1) (by omega)
      have e : i + (k + 1) = i + 1 + k := by omega
      rwa [e] at this
    cases hx : ex i with
    | fault => exact ⟨none, by rw [voltLoop, hx]⟩
    | reply bs =>
      rw [goodExch.eq_def, hx] at h0
      simp only [decide_eq_true_eq] at h0
      by_cases hb : bs.drop 1 = []
      · obtain ⟨r, hr⟩ := ih (i + 1) acc hrest
        exact ⟨r, by rw [voltLoop, hx]; simpa [hb]⟩
      · have hlen : (bs.drop 1).length = 4 := by tauto
        obtain ⟨r, hr⟩ := ih (i + 1) (acc ++ [f32val (bs.drop 1)]) hrest
        exact ⟨r, by rw [voltLoop, hx]; simp only [hb, if_neg hb, unpackF, hlen, if_pos rfl]; exact hr⟩

theorem entryLoop_wf (exE : ℕ → Exchange) (E : ℤ) :
    ∀ (n i : ℕ) (acc : List (ℤ × ℚ)),
      (∀ k, k < n → goodExch (exE (i + k)) = true) →
      ∃ r, entryLoop exE E i n acc = .ok r := by
  intro n
  induction n with
  | zero => intro i acc _; exact ⟨acc, rfl⟩
  | succ n ih =>
    intro i acc h
    have h0 : goodExch (exE i) = true := by simpa using h 0 (Nat.succ_pos n)
    have hrest : ∀ k, k < n → goodExch (exE (i + 1 + k)) = true := by
      intro k hk
      have := h (k + 1) (by omega)
      have e : i + (k + 1) = i + 1 + k := by omega
      rwa [e] at this
    cases hx : exE i with
    | fault =>
      obtain ⟨r, hr⟩ := ih (i + 1) acc hrest
      exact ⟨r, by rw [entryLoop, hx]; exact hr⟩
    | reply bs =>
      rw [goodExch.eq_def, hx] at h0
      simp only [decide_eq_true_eq] at h0
      by_cases hb : bs.drop 1 = []
      · obtain ⟨r, hr⟩ := ih (i + 1) acc hrest
        exact ⟨r, by rw [entryLoop, hx]; simpa [hb]⟩
      · have hlen : (bs.drop 1).length = 4 := by tauto
        obtain ⟨r, hr⟩ := ih (i + 1) (acc ++ [(E + (i : ℤ), f32val (bs.drop 1))]) hrest
        exact ⟨r, by rw [entryLoop, hx]; simp only [hb, if_neg hb, unpackF, hlen, if_pos rfl]; exact hr⟩

/-- C1: when read_voltage returns an averaged voltage v, get_micromoles returns
(v - offset) * multiplier * 1000 clamped below at 0 for v different from 9999,
and returns no result (None) when v equals the sentinel 9999. -/
theorem C1_get_micromoles_conversion (s s' : QuantumState) (cb : ConnectBehavior)
    (ex : ℕ → Exchange) (v : ℚ)
    (h : read_voltage s cb ex = (.ok v, s')) :
    (v ≠ 9999 →
      get_micromoles s cb ex =
        (.ok (some (if (v - s'.offset) * s'.multiplier * 1000 < 0 then 0
                    else (v - s'.offset) * s'.multiplier * 1000)), s')) ∧
    (v = 9999 → get_micromoles s cb ex = (.ok none, s')) := by
  constructor
  · intro hv
    rw [get_micromoles, h]
    simp [hv]
  · intro hv
    rw [get_micromoles, h]
    simp [hv]

/-- C1 witness: multiplier 2, offset 1/2, five full replies decoding to 1.5;
the average is 1.5 and the conversion gives 2000 micromoles. -/
theorem C1_get_micromoles_conversion_witness :
    get_micromoles ⟨true, 2, 1/2⟩ .serialFail (fun _ => .reply [0, 0, 0, 192, 63]) =
      (.ok (some (if ((3 : ℚ)/2 - (1 : ℚ)/2) * 2 * 1000 < 0 then 0
                  else ((3 : ℚ)/2 - (1 : ℚ)/2) * 2 * 1000)), ⟨true, 2, 1/2⟩) :=
  (C1_get_micromoles_conversion ⟨true, 2, 1/2⟩ ⟨true, 2, 1/2⟩ .serialFail
      (fun _ => .reply [0, 0, 0, 192, 63]) (3/2)
      (by simp [read_voltage, voltLoop, number_to_average, unpackF, f32val, leNat]
          norm_num)).1
    (by norm_num)

/-- C3: on a driver holding a handle, when the exchanges before index j complete
without fault and exchange j raises an I/O fault, read_voltage returns the
sentinel 9999 with every earlier sample discarded, and the result is the same
whatever the exchanges after j would have returned. -/
theorem C3_fault_returns_sentinel (s : QuantumState) (cb : ConnectBehavior)
    (ex : ℕ → Exchange) (j : ℕ)
    (hc : s.connected = true) (hj : j < 5)
    (hf : ex j = .fault)
    (hpre : ∀ i, i < j → goodReply (ex i) = true) :
    read_voltage s cb ex = (.ok 9999, s) ∧
    ∀ ex' : ℕ → Exchange, (∀ i, i ≤ j → ex' i = ex i) →
      read_voltage s cb ex' = (.ok 9999, s) := by
  have main : ∀ ex'' : ℕ → Exchange, (∀ i, i ≤ j → ex'' i = ex i) →
      read_voltage s cb ex'' = (.ok 9999, s) := by
    intro ex'' hagree
    have hf'' : ex'' (0 + j) = .fault := by rw [Nat.zero_add, hagree j le_rfl, hf]
    have hpre'' : ∀ k, k < j → goodReply (ex'' (0 + k)) = true := by
      intro k hk; rw [Nat.zero_add, hagree k (le_of_lt hk)]; exact hpre k hk
    have hl := voltLoop_fault ex'' j 5 0 [] hj hpre'' hf''
    rw [read_voltage]
    simp [hc, number_to_average, hl]
  exact ⟨main ex (fun _ _ => rfl), main⟩

/-- C3 witness: two good (empty) exchanges followed by a fault at index 2 give
the sentinel 9999. -/
theorem C3_fault_returns_sentinel_witness :
    read_voltage ⟨true, 0, 0⟩ .serialFail
      (fun i => if i = 2 then .fault else .reply []) = (.ok 9999, ⟨true, 0, 0⟩) :=
  (C3_fault_returns_sentinel ⟨true, 0, 0⟩ .serialFail
      (fun i => if i = 2 then .fault else .reply []) 2 rfl (by omega) (by decide)
      (by decide)).1

/-- C6: get_logging_count discards byte 0 of a 5-byte reply and parses bytes 1-4
as an unsigned 32-bit little-endian integer; an empty reply decodes as count 0;
an I/O failure yields None, a value distinct from a genuine zero count. -/
theorem C6_get_logging_count_decode (s : QuantumState) (b0 b1 b2 b3 b4 : ℕ)
    (hc : s.connected = true)
    (h1 : b1 < 256) (h2 : b2 < 256) (h3 : b3 < 256) (h4 : b4 < 256) :
    get_logging_count s (.reply [b0, b1, b2, b3, b4]) =
      (.ok (some (b1 + 2 ^ 8 * b2 + 2 ^ 16 * b3 + 2 ^ 24 * b4)), s) ∧
    b1 + 2 ^ 8 * b2 + 2 ^ 16 * b3 + 2 ^ 24 * b4 < 2 ^ 32 ∧
    get_logging_count s (.reply []) = (.ok (some 0), s) ∧
    get_logging_count s .fault = (.ok none, s) ∧
    ((.ok (some 0), s) : Except PyErr (Option ℕ) × QuantumState) ≠ (.ok none, s) := by
  refine ⟨?_, by omega, ?_, ?_, by simp⟩
  · rw [get_logging_count]
    simp [hc, unpackU, leNat]
    omega
  · rw [get_logging_count]
    simp [hc]
  · rw [get_logging_count]
    simp [hc]

/-- C6 witness: byte string 00 2A 01 00 00 decodes as count 298. -/
theorem C6_get_logging_count_decode_witness :
    get_logging_count ⟨true, 0, 0⟩ (.reply [0, 42, 1, 0, 0]) =
      (.ok (some (42 + 2 ^ 8 * 1 + 2 ^ 16 * 0 + 2 ^ 24 * 0)), ⟨true, 0, 0⟩) :=
  (C6_get_logging_count_decode ⟨true, 0, 0⟩ 0 42 1 0 0 rfl (by omega) (by omega)
    (by omega) (by omega)).1

/-- C7 counterexample: the 1-byte reply 07 has a length different from the
expected 5 bytes, yet the decode step does not fail: get_logging_count treats it
exactly like an empty reply (count 0), and the sampling loop silently skips it,
so read_voltage returns 0. -/
theorem C7_short_reply_counterexample :
    ([7] : List ℕ).length ≠ 5 ∧ ([7] : List ℕ) ≠ [] ∧
    get_logging_count ⟨true, 0, 0⟩ (.reply [7]) = (.ok (some 0), ⟨true, 0, 0⟩) ∧
    get_logging_count ⟨true, 0, 0⟩ (.reply []) = (.ok (some 0), ⟨true, 0, 0⟩) ∧
    read_voltage ⟨true, 0, 0⟩ .serialFail (fun _ => .reply [7]) =
      (.ok 0, ⟨true, 0, 0⟩) := by
  refine ⟨by decide, by decide, ?_, ?_, ?_⟩
  · rw [get_logging_count]; simp
  · rw [get_logging_count]; simp
  · rw [read_voltage]
    simp [number_to_average, voltLoop]

/-- C7 amended: a measurement reply of length at least 2 and different from 5
makes the decode step fail as a hard uncaught error, and so does a calibration
offset reply of length different from 4; but a reply of length 0 or 1 leaves an
empty body after the status byte is discarded and is treated as the empty-reply
case (count 0, sample skipped), not as a decode failure. -/
theorem C7_wrong_length_decode (s : QuantumState) (bs rep5 rep4 : List ℕ)
    (hc : s.connected = true)
    (hge : 2 ≤ bs.length) (hne : bs.length ≠ 5)
    (h5 : rep5.length = 5) (h4 : rep4.length ≠ 4) :
    get_logging_count s (.reply bs) = (.error .structError, s) ∧
    read_voltage s .serialFail (fun _ => .reply bs) = (.error .structError, s) ∧
    (connect_to_device s (.replies rep5 rep4)).1 = .error .structError ∧
    ∀ cs : List ℕ, cs.length ≤ 1 → get_logging_count s (.reply cs) = (.ok (some 0), s) := by
  have hbody : (bs.drop 1).length ≠ 4 := by
    rw [List.length_drop]; omega
  have hnonempty : ¬ bs.drop 1 = [] := by
    intro e
    have : (bs.drop 1).length = 0 := by rw [e]; rfl
    rw [List.length_drop] at this; omega
  have hu : unpackF (bs.drop 1) = .error .structError := by
    rw [unpackF, if_neg hbody]
  have huU : unpackU (bs.drop 1) = .error .structError := by
    rw [unpackU, if_neg hbody]
  refine ⟨?_, ?_, ?_, ?_⟩
  · rw [get_logging_count]
    have hbt : ¬ bs.tail = [] := by rwa [List.drop_one] at hnonempty
    have huUt : unpackU bs.tail = .error .structError := by rwa [List.drop_one] at huU
    simp [hc, hbt, huUt]
  · rw [read_voltage]
    have hbt : ¬ bs.tail = [] := by rwa [List.drop_one] at hnonempty
    have hut : unpackF bs.tail = .error .structError := by rwa [List.drop_one] at hu
    simp [hc, number_to_average, voltLoop, hbt, hut]
  · rw [connect_to_device]
    have hm : (rep5.drop 1).length = 4 := by rw [List.length_drop]; omega
    have hum : unpackF (rep5.drop 1) = .ok (f32val (rep5.drop 1)) := by
      rw [unpackF, if_pos hm]
    have huo : unpackF rep4 = .error .structError := by rw [unpackF, if_neg h4]
    have humt : unpackF rep5.tail = .ok (f32val rep5.tail) := by
      rwa [List.drop_one] at hum
    simp [humt, huo]
  · intro cs hcs
    have hcse : cs.drop 1 = [] := by
      have : (cs.drop 1).length = 0 := by rw [List.length_drop]; omega
      exact List.length_eq_zero.mp this
    rw [get_logging_count]
    have hbt : cs.tail = [] := by rwa [List.drop_one] at hcse
    simp [hc, hbt]

/-- C7 witness: the 3-byte reply raises an uncaught decode error in
get_logging_count, and the 1-byte reply decodes as count 0. -/
theorem C7_wrong_length_decode_witness :
    get_logging_count ⟨true, 0, 0⟩ (.reply [1, 2, 3]) =
      (.error .structError, ⟨true, 0, 0⟩) ∧
    get_logging_count ⟨true, 0, 0⟩ (.reply [9]) = (.ok (some 0), ⟨true, 0, 0⟩) :=
  ⟨(C7_wrong_length_decode ⟨true, 0, 0⟩ [1, 2, 3] [0, 0, 0, 128, 63] [1, 2] rfl
      (by decide) (by decide) (by decide) (by decide)).1,
   (C7_wrong_length_decode ⟨true, 0, 0⟩ [1, 2, 3] [0, 0, 0, 128, 63] [1, 2] rfl
      (by decide) (by decide) (by decide) (by decide)).2.2.2 [9] (by decide)⟩

/-- C10: the sentinel is a genuinely attainable reading: five successful full
replies each decoding to 9999 average to exactly 9999, read_voltage returns it,
and get_micromoles reports no result, exactly as it does after a genuine I/O
fault. -/
theorem C10_sentinel_attainable :
    f32val [0, 60, 28, 70] = 9999 ∧
    read_voltage ⟨true, 1, 0⟩ .serialFail (fun _ => .reply [0, 0, 60, 28, 70]) =
      (.ok 9999, ⟨true, 1, 0⟩) ∧
    get_micromoles ⟨true, 1, 0⟩ .serialFail (fun _ => .reply [0, 0, 60, 28, 70]) =
      (.ok none, ⟨true, 1, 0⟩) ∧
    get_micromoles ⟨true, 1, 0⟩ .serialFail (fun _ => .fault) =
      (.ok none, ⟨true, 1, 0⟩) := by
  have hval : f32val [0, 60, 28, 70] = 9999 := by norm_num [f32val, leNat]
  have hrv : read_voltage ⟨true, 1, 0⟩ .serialFail (fun _ => .reply [0, 0, 60, 28, 70]) =
      (.ok 9999, ⟨true, 1, 0⟩) := by
    rw [read_voltage]
    simp [number_to_average, voltLoop, unpackF, f32val, leNat]
    norm_num
  refine ⟨hval, hrv, ?_, ?_⟩
  · rw [get_micromoles, hrv]
    simp
  · rw [get_micromoles]
    rw [show read_voltage ⟨true, 1, 0⟩ .serialFail (fun _ => .fault) =
        (.ok 9999, ⟨true, 1, 0⟩) from by
      rw [read_voltage]; simp [number_to_average, voltLoop]]
    simp

/-- C2 counterexample: a 3-byte reply raises no I/O fault, yet read_voltage does
not return a mean: the wrong-width body raises an uncaught struct.error. -/
theorem C2_short_reply_counterexample :
    (List.range 5).all (fun i =>
      decide ((fun _ : ℕ => Exchange.reply [0, 1, 2]) i ≠ Exchange.fault)) = true ∧
    read_voltage ⟨true, 0, 0⟩ .serialFail (fun _ => .reply [0, 1, 2]) =
      (.error .structError, ⟨true, 0, 0⟩) := by
  refine ⟨by decide, ?_⟩
  rw [read_voltage]
  simp [number_to_average, voltLoop, unpackF]

/-- C2 amended: on a driver holding a handle, when none of the five exchanges
raises an I/O fault and every reply is either empty after the status byte (0 or
1 bytes read) or a full 5 bytes, read_voltage returns the arithmetic mean of
the decoded samples, skipping the empty ones, and returns 0.0 when every reply
was empty. -/
theorem C2_mean_of_samples (s : QuantumState) (cb : ConnectBehavior)
    (ex : ℕ → Exchange)
    (hc : s.connected = true)
    (hgood : ∀ i, i < 5 → goodReply (ex i) = true) :
    read_voltage s cb ex =
      (.ok (if samples ex 5 = [] then 0
            else (samples ex 5).sum / ((samples ex 5).length : ℚ)), s) := by
  have hgood0 : ∀ k, k < 5 → goodReply (ex (0 + k)) = true := by
    intro k hk; rw [Nat.zero_add]; exact hgood k hk
  have hl := voltLoop_good ex 5 0 [] hgood0
  have hs : samples ex 5 = (List.range' 0 5).filterMap fun j => sampleOf (ex j) := by
    rw [samples, List.range_eq_range']
  rw [read_voltage]
  simp only [hc, if_true, number_to_average, hl, List.nil_append]
  rw [← hs]
  split <;> rfl

/-- C2 witness: one empty reply and four full replies decoding to 1 average
to 1. -/
theorem C2_mean_of_samples_witness :
    read_voltage ⟨true, 0, 0⟩ .serialFail
      (fun i => if i = 0 then .reply [] else .reply [0, 0, 0, 128, 63]) =
      (.ok (if samples (fun i => if i = 0 then .reply [] else .reply [0, 0, 0, 128, 63]) 5 = []
            then 0
            else (samples (fun i => if i = 0 then .reply [] else .reply [0, 0, 0, 128, 63]) 5).sum /
              ((samples (fun i => if i = 0 then .reply [] else .reply [0, 0, 0, 128, 63]) 5).length : ℚ)),
        ⟨true, 0, 0⟩) :=
  C2_mean_of_samples ⟨true, 0, 0⟩ .serialFail
    (fun i => if i = 0 then .reply [] else .reply [0, 0, 0, 128, 63]) rfl (by decide)

/-- C4: on a driver holding a handle, when the count exchange decodes to c and
every entry exchange returns a full reply, get_all_logged_entries emits one row
per index 0..c-1 in ascending order, giving entry i the timestamp
(T - c minutes) + i minutes. -/
theorem C4_entry_timestamps (s : QuantumState) (T : ℤ) (exC : Exchange)
    (exE : ℕ → Exchange) (c : ℕ)
    (_hc : s.connected = true)
    (hcount : get_logging_count s exC = (.ok (some c), s))
    (hfull : ∀ i, i < c → fullReply (exE i) = true) :
    get_all_logged_entries s T exC exE =
      (.ok (some ((List.range c).map fun (i : ℕ) =>
        ((T - (c : ℤ) + (i : ℤ), entryVal (exE i)) : ℤ × ℚ))), s) := by
  have hfull0 : ∀ k, k < c → exE (0 + k) = .fault ∨ fullReply (exE (0 + k)) = true := by
    intro k hk; rw [Nat.zero_add]; exact Or.inr (hfull k hk)
  have hl := entryLoop_good exE (T - (c : ℤ)) c 0 [] hfull0
  have hfil : ((List.range' 0 c).filter fun j => !decide (exE j = Exchange.fault)) =
      List.range' 0 c := by
    rw [List.filter_eq_self]
    intro a ha
    have ha' : a < c := by
      have := List.mem_range'_1.mp ha
      omega
    have := hfull a ha'
    cases hx : exE a with
    | fault => rw [fullReply.eq_def, hx] at this; simp at this
    | reply bs => simp
  rw [get_all_logged_entries, hcount]
  rw [List.range_eq_range']
  simp [hl, hfil]

/-- C4 witness: count 3 and full entry replies give rows with timestamps
T-3, T-2, T-1 minutes for indices 0, 1, 2, at T = 100. -/
theorem C4_entry_timestamps_witness :
    get_all_logged_entries ⟨true, 0, 0⟩ 100 (.reply [0, 3, 0, 0, 0])
      (fun _ => .reply [0, 0, 0, 128, 63]) =
      (.ok (some ((List.range 3).map fun (i : ℕ) =>
        ((100 - (3 : ℤ) + (i : ℤ),
          entryVal ((fun _ : ℕ => Exchange.reply [0, 0, 0, 128, 63]) i)) : ℤ × ℚ))),
        ⟨true, 0, 0⟩) :=
  C4_entry_timestamps ⟨true, 0, 0⟩ 100 (.reply [0, 3, 0, 0, 0])
    (fun _ => .reply [0, 0, 0, 128, 63]) 3 rfl
    (by rw [get_logging_count]; simp [unpackU, leNat])
    (by decide)

/-- C5: on a driver holding a handle, bulk retrieval aborts with no output when
the count exchange faults (count unknown); writes the header and no rows when
the count is 0; and on per-entry I/O faults completes normally with rows for
exactly the non-faulting (full-reply) indices, in ascending order. -/
theorem C5_bulk_retrieval_failures (s : QuantumState) (T : ℤ) (exC : Exchange)
    (exE : ℕ → Exchange) (c : ℕ)
    (hc : s.connected = true) :
    (exC = .fault → get_all_logged_entries s T exC exE = (.ok none, s)) ∧
    (get_logging_count s exC = (.ok (some 0), s) →
      get_all_logged_entries s T exC exE = (.ok (some []), s)) ∧
    (get_logging_count s exC = (.ok (some c), s) →
      (∀ i, i < c → exE i = .fault ∨ fullReply (exE i) = true) →
      get_all_logged_entries s T exC exE =
        (.ok (some (((List.range c).filter fun j => decide (exE j ≠ .fault)).map
          fun (j : ℕ) => ((T - (c : ℤ) + (j : ℤ), entryVal (exE j)) : ℤ × ℚ))), s)) := by
  refine ⟨?_, ?_, ?_⟩
  · intro hf
    have hcount : get_logging_count s exC = (.ok none, s) := by
      rw [get_logging_count.eq_def]; simp [hc, hf]
    rw [get_all_logged_entries, hcount]
  · intro hcount
    rw [get_all_logged_entries, hcount]
    rfl
  · intro hcount hwf
    have hwf0 : ∀ k, k < c → exE (0 + k) = .fault ∨ fullReply (exE (0 + k)) = true := by
      intro k hk; rw [Nat.zero_add]; exact hwf k hk
    have hl := entryLoop_good exE (T - (c : ℤ)) c 0 [] hwf0
    rw [get_all_logged_entries, hcount]
    rw [List.range_eq_range']
    simp [hl]

/-- C5 witness: count 3 with a fault at entry index 1 gives rows for indices 0
and 2 only, in order, and a faulting count exchange gives no output. -/
theorem C5_bulk_retrieval_failures_witness :
    get_all_logged_entries ⟨true, 0, 0⟩ 100 .fault
      (fun i => if i = 1 then .fault else .reply [0, 0, 0, 128, 63]) =
      (.ok none, ⟨true, 0, 0⟩) ∧
    get_all_logged_entries ⟨true, 0, 0⟩ 100 (.reply [0, 3, 0, 0, 0])
      (fun i => if i = 1 then .fault else .reply [0, 0, 0, 128, 63]) =
      (.ok (some (((List.range 3).filter fun j =>
          decide ((fun i => if i = 1 then Exchange.fault
            else Exchange.reply [0, 0, 0, 128, 63]) j ≠ Exchange.fault)).map
        fun (j : ℕ) => ((100 - (3 : ℤ) + (j : ℤ),
          entryVal ((fun i => if i = 1 then Exchange.fault
            else Exchange.reply [0, 0, 0, 128, 63]) j)) : ℤ × ℚ))),
        ⟨true, 0, 0⟩) :=
  ⟨(C5_bulk_retrieval_failures ⟨true, 0, 0⟩ 100 .fault
      (fun i => if i = 1 then .fault else .reply [0, 0, 0, 128, 63]) 3 rfl).1 rfl,
   (C5_bulk_retrieval_failures ⟨true, 0, 0⟩ 100 (.reply [0, 3, 0, 0, 0])
      (fun i => if i = 1 then .fault else .reply [0, 0, 0, 128, 63]) 3 rfl).2.2
     (by rw [get_logging_count]; simp [unpackU, leNat])
     (by decide)⟩

theorem get_logging_count_snd (s : QuantumState) (exC : Exchange) :
    (get_logging_count s exC).2 = s := by
  rw [get_logging_count.eq_def]
  dsimp only
  repeat' split
  all_goals rfl

theorem erase_logged_data_snd (s : QuantumState) (wf : Bool) :
    (erase_logged_data s wf).2 = s := by
  rw [erase_logged_data.eq_def]
  repeat' split
  all_goals rfl

theorem get_all_logged_entries_snd (s : QuantumState) (T : ℤ) (exC : Exchange)
    (exE : ℕ → Exchange) : (get_all_logged_entries s T exC exE).2 = s := by
  rw [get_all_logged_entries.eq_def]
  rcases hr : get_logging_count s exC with ⟨r, s1⟩
  have hs1 : s1 = s := by
    have h2 := get_logging_count_snd s exC
    rw [hr] at h2
    exact h2
  subst hs1
  rcases r with e | c
  · rfl
  · rcases c with _ | c
    · rfl
    · cases hl : entryLoop exE (T - (c : ℤ)) 0 c [] <;> simp [hl]

theorem read_voltage_snd_connected (s : QuantumState) (cb : ConnectBehavior)
    (ex : ℕ → Exchange) (hc : s.connected = true) :
    (read_voltage s cb ex).2 = s := by
  rw [read_voltage]
  simp only [hc, if_true]
  cases hl : voltLoop ex 0 number_to_average [] with
  | error e => simp [hl, hc]
  | ok r =>
    cases r with
    | none => simp [hl, hc]
    | some l => by_cases he : l = [] <;> simp [hl, hc, he]

/-- C9 counterexample: on a driver whose open failed (no handle, calibration
still zero), a later read_voltage lazily reconnects and overwrites the
calibration fields: an operation other than the initial connect-and-calibrate
sequence modified multiplier and offset. -/
theorem C9_lazy_reconnect_counterexample :
    (⟨false, 0, 0⟩ : QuantumState).multiplier = 0 ∧
    read_voltage ⟨false, 0, 0⟩ (.replies [9, 0, 0, 0, 64] [0, 0, 0, 63])
      (fun _ => .reply []) = (.ok 0, ⟨true, 2, 1/2⟩) ∧
    ((read_voltage ⟨false, 0, 0⟩ (.replies [9, 0, 0, 0, 64] [0, 0, 0, 63])
      (fun _ => .reply [])).2).multiplier ≠ (⟨false, 0, 0⟩ : QuantumState).multiplier := by
  have h : read_voltage ⟨false, 0, 0⟩ (.replies [9, 0, 0, 0, 64] [0, 0, 0, 63])
      (fun _ => .reply []) = (.ok 0, ⟨true, 2, 1/2⟩) := by
    rw [read_voltage]
    simp [connect_to_device, unpackF, f32val, leNat, voltLoop, number_to_average]
    norm_num
  refine ⟨rfl, h, ?_⟩
  rw [h]
  norm_num

/-- C9 amended: the calibration pair is written only by connect_to_device,
which runs at construction and again when read_voltage finds the handle
missing; on a driver already holding a handle no operation changes the driver
state, so multiplier and offset stay fixed. -/
theorem C9_calibration_stable_when_connected (s : QuantumState) (cb : ConnectBehavior)
    (ex exE : ℕ → Exchange) (exC : Exchange) (wf : Bool) (T : ℤ)
    (hc : s.connected = true) :
    (read_voltage s cb ex).2 = s ∧
    (get_micromoles s cb ex).2 = s ∧
    (get_logging_count s exC).2 = s ∧
    (erase_logged_data s wf).2 = s ∧
    (get_all_logged_entries s T exC exE).2 = s := by
  have hrv := read_voltage_snd_connected s cb ex hc
  refine ⟨hrv, ?_, get_logging_count_snd s exC, erase_logged_data_snd s wf,
    get_all_logged_entries_snd s T exC exE⟩
  rw [get_micromoles.eq_def]
  rcases hr : read_voltage s cb ex with ⟨r, s1⟩
  have hs1 : s1 = s := by rw [hr] at hrv; exact hrv
  subst hs1
  rcases r with e | v
  · rfl
  · by_cases hv : v = 9999 <;> simp [hv]

/-- C9 amended witness: on a connected driver with calibration (2, 1/2), a
read_voltage, a get_logging_count, an erase and a bulk retrieval all leave the
state unchanged. -/
theorem C9_calibration_stable_witness :
    (⟨true, 2, 1/2⟩ : QuantumState).connected = true ∧
    (read_voltage ⟨true, 2, 1/2⟩ .serialFail (fun _ => .reply [])).2 = ⟨true, 2, 1/2⟩ ∧
    (get_all_logged_entries ⟨true, 2, 1/2⟩ 100 .fault (fun _ => .reply [])).2 =
      ⟨true, 2, 1/2⟩ :=
  ⟨rfl,
   (C9_calibration_stable_when_connected ⟨true, 2, 1/2⟩ .serialFail
      (fun _ => .reply []) (fun _ => .reply []) .fault false 100 rfl).1,
   (C9_calibration_stable_when_connected ⟨true, 2, 1/2⟩ .serialFail
      (fun _ => .reply []) (fun _ => .reply []) .fault false 100 rfl).2.2.2.2⟩

/-- C8 counterexample: after a failed open the driver holds no handle, and the
dependent operations do not become no-ops or report failure: the None handle
raises an uncaught AttributeError that propagates to the caller. -/
theorem C8_uncaught_crash_counterexample :
    read_voltage ⟨false, 0, 0⟩ .serialFail (fun _ => .reply [0, 0, 0, 128, 63]) =
      (.error .attrError, ⟨false, 0, 0⟩) ∧
    erase_logged_data ⟨false, 0, 0⟩ false = (.error .attrError, ⟨false, 0, 0⟩) ∧
    get_logging_count ⟨false, 0, 0⟩ (.reply [0, 0, 0, 0, 0]) =
      (.error .attrError, ⟨false, 0, 0⟩) := by
  refine ⟨?_, rfl, rfl⟩
  rw [read_voltage]
  simp [connect_to_device]

/-- C8 amended: on a driver holding a handle and receiving well-formed replies
(every exchange either faults or returns a body that is empty or full width),
each operation absorbs I/O faults at its boundary and returns normally, so no
exception reaches the caller; with no handle, or on a wrong-width non-empty
body, an uncaught AttributeError or struct.error does escape. -/
theorem C8_faults_absorbed_when_connected (s : QuantumState) (cb : ConnectBehavior)
    (ex exE : ℕ → Exchange) (exC : Exchange) (wf : Bool) (T : ℤ)
    (hc : s.connected = true)
    (hex : ∀ i, i < 5 → goodExch (ex i) = true)
    (hexC : goodExch exC = true)
    (hexE : ∀ i, goodExch (exE i) = true) :
    isOkE (read_voltage s cb ex).1 = true ∧
    isOkE (get_micromoles s cb ex).1 = true ∧
    isOkE (get_logging_count s exC).1 = true ∧
    isOkE (erase_logged_data s wf).1 = true ∧
    isOkE (get_all_logged_entries s T exC exE).1 = true := by
  have hex0 : ∀ k, k < 5 → goodExch (ex (0 + k)) = true := by
    intro k hk; rw [Nat.zero_add]; exact hex k hk
  obtain ⟨r, hr⟩ := voltLoop_wf ex 5 0 [] hex0
  have hrv : isOkE (read_voltage s cb ex).1 = true := by
    rw [read_voltage]
    simp only [hc, if_true, number_to_average, hr]
    rcases r with _ | l
    · rfl
    · by_cases he : l = [] <;> simp [he, isOkE]
  have hcount : isOkE (get_logging_count s exC).1 = true := by
    rw [get_logging_count.eq_def]
    simp only [hc, if_true]
    cases hxc : exC with
    | fault => rfl
    | reply bs =>
      rw [goodExch.eq_def, hxc] at hexC
      simp only [decide_eq_true_eq] at hexC
      by_cases hb : bs.drop 1 = []
      · simp [hb, isOkE]
      · have hlen : (bs.drop 1).length = 4 := hexC.resolve_left hb
        have hu : unpackU (bs.drop 1) = .ok (leNat (bs.drop 1)) := by
          rw [unpackU, if_pos hlen]
        have hbt : ¬ bs.tail = [] := by rwa [List.drop_one] at hb
        have hut : unpackU bs.tail = .ok (leNat bs.tail) := by rwa [List.drop_one] at hu
        simp [hbt, hut, isOkE]
  have hmm : isOkE (get_micromoles s cb ex).1 = true := by
    rw [get_micromoles.eq_def]
    rcases hrp : read_voltage s cb ex with ⟨rv, s1⟩
    rcases rv with e | v
    · rw [hrp] at hrv; simp [isOkE] at hrv
    · by_cases hv : v = 9999 <;> simp [hv, isOkE]
  have hall : isOkE (get_all_logged_entries s T exC exE).1 = true := by
    rw [get_all_logged_entries.eq_def]
    rcases hrc : get_logging_count s exC with ⟨rc, s1⟩
    rcases rc with e | c
    · rw [hrc] at hcount; simp [isOkE] at hcount
    · rcases c with _ | c
      · rfl
      · have hexE0 : ∀ k, k < c → goodExch (exE (0 + k)) = true := by
          intro k _; rw [Nat.zero_add]; exact hexE k
        obtain ⟨rows, hrows⟩ := entryLoop_wf exE (T - (c : ℤ)) c 0 [] hexE0
        simp [hrows, isOkE]
  refine ⟨hrv, hmm, hcount, ?_, hall⟩
  rw [erase_logged_data.eq_def]
  simp only [hc, if_true]
  cases wf <;> rfl

/-- C8 amended witness: a connected driver whose five voltage exchanges all
fault, whose count exchange faults and whose erase write faults still returns
normally from every operation. -/
theorem C8_faults_absorbed_witness :
    isOkE (read_voltage ⟨true, 2, 1/2⟩ .serialFail (fun _ => .fault)).1 = true ∧
    isOkE (get_all_logged_entries ⟨true, 2, 1/2⟩ 100 .fault (fun _ => .fault)).1 = true ∧
    isOkE (erase_logged_data ⟨true, 2, 1/2⟩ true).1 = true :=
  ⟨(C8_faults_absorbed_when_connected ⟨true, 2, 1/2⟩ .serialFail (fun _ => .fault)
      (fun _ => .fault) .fault true 100 rfl (by decide) rfl (fun _ => rfl)).1,
   (C8_faults_absorbed_when_connected ⟨true, 2, 1/2⟩ .serialFail (fun _ => .fault)
      (fun _ => .fault) .fault true 100 rfl (by decide) rfl (fun _ => rfl)).2.2.2.2,
   (C8_faults_absorbed_when_connected ⟨true, 2, 1/2⟩ .serialFail (fun _ => .fault)
      (fun _ => .fault) .fault true 100 rfl (by decide) rfl (fun _ => rfl)).2.2.2.1⟩

end Apogee
